import Mathlib

/-!
Verification development for the Archy floating-browser shell.

The definitions below are a shallow embedding of the tab-management module
(`createTab` / `switchToTab` / `closeTab` / `navigateTab` / `updateTab`) and of
`WebContentsViewManager` (content-surface lifecycle, bounds calculation,
fullscreen and navbar handling, per-domain zoom ledger).  JavaScript numbers
are modelled as `ℚ` (for zoom factors) and `ℤ` (for pixel geometry); JS `Map`s
are modelled as insertion-ordered association lists; `null`/`undefined` become
`Option`.  Electron / WHATWG platform primitives used by the code
(`Math.min/max/round`, `new URL(u).hostname`) are modelled from their
documented semantics.
-/

namespace Archy

/-! ### Generic list helpers (JS `Array.findIndex`, indexing, `splice`) -/

/-- JS `array.findIndex(p)`, as an `Option Nat` (JS returns `-1` when absent). -/
def findIndexP (p : α → Bool) : List α → Option Nat
  | [] => none
  | x :: xs => if p x then some 0 else (findIndexP p xs).map (· + 1)

/-- JS `array[i]` as an `Option` (out-of-range indexing yields `undefined`). -/
def nthOpt : List α → Nat → Option α
  | [], _ => none
  | x :: _, 0 => some x
  | _ :: xs, n + 1 => nthOpt xs n

/-- JS `array.splice(i, 1)`: remove the element at index `i`. -/
def spliceOne : List α → Nat → List α
  | [], _ => []
  | _ :: xs, 0 => xs
  | x :: xs, n + 1 => x :: spliceOne xs n

/-- Modify the first element satisfying `p` (JS `array.find(p)` then mutate). -/
def modifyFirst (p : α → Bool) (f : α → α) : List α → List α
  | [] => []
  | x :: xs => if p x then f x :: xs else x :: modifyFirst p f xs

/-! ### Association lists modelling JS `Map` (insertion-ordered, unique keys) -/

/-- JS `map.get(k)`. -/
def findEntry [DecidableEq α] : List (α × β) → α → Option β
  | [], _ => none
  | (a, b) :: rest, k => if a = k then some b else findEntry rest k

/-- JS `map.set(k, v)`: replace in place if present, else append. -/
def setEntry [DecidableEq α] : List (α × β) → α → β → List (α × β)
  | [], k, v => [(k, v)]
  | (a, b) :: rest, k, v =>
      if a = k then (k, v) :: rest else (a, b) :: setEntry rest k v

/-- JS `map.delete(k)`: remove the entry for `k` (at most one exists). -/
def delEntry [DecidableEq α] : List (α × β) → α → List (α × β)
  | [], _ => []
  | (a, b) :: rest, k => if a = k then rest else (a, b) :: delEntry rest k

/-! ### WHATWG URL hostname extraction

Models `new URL(u).hostname` for the URL shapes this codebase passes around:
`scheme://host/...` yields the host (stopping at `/`, `:`, `?`, `#`; an empty
authority for a special scheme throws), an opaque-path URL such as
`about:blank` parses successfully with an **empty** hostname, and a string
with no scheme at all (for example the empty string returned by `getURL()` on
a fresh WebContents) makes the constructor throw, modelled as `none`. -/

/-- Split a character list at the first `:` into scheme and remainder. -/
def splitScheme : List Char → Option (List Char × List Char)
  | [] => none
  | ':' :: rest => some ([], rest)
  | c :: rest => (splitScheme rest).map (fun p => (c :: p.1, p.2))

/-- Authority characters up to the first delimiter. -/
def takeHost : List Char → List Char
  | [] => []
  | c :: rest =>
      if c = '/' ∨ c = ':' ∨ c = '?' ∨ c = '#' then []
      else c :: takeHost rest

/-- Whether a scheme candidate starts with an ASCII letter. -/
def startsWithAlpha : List Char → Bool
  | [] => false
  | c :: _ => c.isAlpha

/-- `new URL(u).hostname`, with `none` when the constructor throws. -/
def parseHostname (u : String) : Option String :=
  match splitScheme u.data with
  | none => none
  | some (scheme, rest) =>
      if startsWithAlpha scheme then
        match rest with
        | '/' :: '/' :: r =>
            let h := takeHost r
            if h.isEmpty then none else some (String.mk h)
        | _ => some ""
      else none

/-- JS `Math.round` on a rational: round half away from zero is
`Math.round`'s half-up behaviour for the nonnegative values used here. -/
def jsRound (q : ℚ) : ℤ := ⌊q + 1 / 2⌋

/-! ### Geometry and view-manager state (`WebContentsViewManager`) -/

/-- Electron bounds rectangle. -/
structure Rect where
  x : ℤ
  y : ℤ
  width : ℤ
  height : ℤ
deriving DecidableEq, Repr

def NAVBAR_FULL_HEIGHT : ℤ := 38
def NAVBAR_HIDDEN_HEIGHT : ℤ := 0

/-- One content `WebContentsView`: its webContents URL and zoom factor,
Electron visibility flag, current bounds, and whether it is currently a child
of the window's `contentView` (the layer stack). -/
structure CView where
  url : String
  zoomFactor : ℚ
  visible : Bool
  bounds : Rect
  inStack : Bool
deriving DecidableEq, Repr

/-- Overlay surface mode (`this.overlayMode`; `null` is `Option.none`). -/
inductive OverlayMode
  | settings
  | search
  | dragbar
deriving DecidableEq, Repr

/-- Messages the manager emits or sends to navbar/overlay webContents. -/
inductive Notif
  | zoomChanged (factor : ℚ) (percentage : ℤ)
  | navbarVisibilityChanged (visible : Bool)
  | fullscreenEntered
  | fullscreenLeft
  | dragbarShow
  | dragbarHide
  | navbarFullscreenLeave
  | tabSwitched (oldTab : Option Nat) (newTab : Nat)
  | tabsChanged
deriving DecidableEq, Repr

/-- `WebContentsViewManager` state: window content size, the singleton
navbar/overlay surfaces, the content views keyed by tab id, the per-tab
listener registry, and the zoom ledger. -/
structure VM where
  winW : ℤ
  winH : ℤ
  navBarBounds : Rect
  overlayBounds : Rect
  overlayMode : Option OverlayMode
  overlayInStack : Bool
  contentViews : List (Nat × CView)
  listened : List Nat
  activeTabId : Option Nat
  showNav : Bool
  isFullscreen : Bool
  zoomOffsetsByDomain : List (String × ℚ)
  defaultZoomFactor : ℚ
  notifs : List Notif
deriving DecidableEq, Repr

namespace VM

/-- `calculateBounds`: content area below the navbar. -/
def calculateBounds (s : VM) : Rect :=
  let navHeight : ℤ :=
    if s.isFullscreen then 0
    else if s.showNav then NAVBAR_FULL_HEIGHT else NAVBAR_HIDDEN_HEIGHT
  { x := 0, y := navHeight, width := s.winW, height := s.winH - navHeight }

/-- `updateNavBarBounds`. -/
def updateNavBarBounds (s : VM) : VM :=
  let navHeight : ℤ :=
    if s.isFullscreen then 0
    else if s.showNav then NAVBAR_FULL_HEIGHT else NAVBAR_HIDDEN_HEIGHT
  { s with navBarBounds := { x := 0, y := 0, width := s.winW, height := navHeight } }

/-- `updateOverlayBounds`: full-window overlay for the settings panel. -/
def updateOverlayBounds (s : VM) : VM :=
  { s with
      overlayBounds := { x := 0, y := 0, width := s.winW, height := s.winH },
      overlayMode := some OverlayMode.settings }

/-- `setOverlaySearchBounds`: responsive top-right search strip. -/
def setOverlaySearchBounds (s : VM) : VM :=
  let searchBarWidth : ℤ := min 450 (max 280 (s.winW - 30))
  let searchBarX : ℤ := max 0 (s.winW - searchBarWidth - 10)
  { s with
      overlayBounds := { x := searchBarX, y := 38, width := searchBarWidth, height := 100 },
      overlayMode := some OverlayMode.search }

/-- `setOverlayDragBarBounds`: thin full-width strip at the top. -/
def setOverlayDragBarBounds (s : VM) : VM :=
  { s with
      overlayBounds := { x := 0, y := 0, width := s.winW, height := 15 },
      overlayMode := some OverlayMode.dragbar }

/-- `updateAllViewBounds`: navbar, mode-dependent overlay, then the same
content bounds applied to every content view, hidden ones included. -/
def updateAllViewBounds (s : VM) : VM :=
  let s1 := updateNavBarBounds s
  let s2 :=
    match s1.overlayMode with
    | some OverlayMode.settings => updateOverlayBounds s1
    | some OverlayMode.search => setOverlaySearchBounds s1
    | some OverlayMode.dragbar => setOverlayDragBarBounds s1
    | none => s1
  let contentBounds := s2.calculateBounds
  { s2 with
      contentViews := s2.contentViews.map (fun p => (p.1, { p.2 with bounds := contentBounds })) }

/-- `showFullscreenDragBar`: attach the overlay as a drag strip unless some
other overlay mode is active. -/
def showFullscreenDragBar (s : VM) : VM :=
  match s.overlayMode with
  | some m =>
      if m = OverlayMode.dragbar then
        let s1 := setOverlayDragBarBounds { s with overlayInStack := true }
        { s1 with notifs := s1.notifs ++ [Notif.dragbarShow] }
      else s
  | none =>
      let s1 := setOverlayDragBarBounds { s with overlayInStack := true }
      { s1 with notifs := s1.notifs ++ [Notif.dragbarShow] }

/-- `hideFullscreenDragBar`: detach the overlay only when in dragbar mode. -/
def hideFullscreenDragBar (s : VM) : VM :=
  if s.overlayMode = some OverlayMode.dragbar then
    { s with
        overlayInStack := false
        overlayMode := none
        notifs := s.notifs ++ [Notif.dragbarHide] }
  else s

/-- `setNavBarVisible`. -/
def setNavBarVisible (s : VM) (visible : Bool) : VM :=
  if s.showNav = visible then s
  else
    let s1 := { s with showNav := visible }
    let s2 := if visible then hideFullscreenDragBar s1 else showFullscreenDragBar s1
    let s3 := updateAllViewBounds s2
    { s3 with notifs := s3.notifs ++ [Notif.navbarVisibilityChanged visible] }

/-- `enterFullscreen`: idempotent; never touches `showNav`. -/
def enterFullscreen (s : VM) : VM :=
  if s.isFullscreen then s
  else
    let s1 := showFullscreenDragBar { s with isFullscreen := true }
    let s2 := updateAllViewBounds s1
    { s2 with notifs := s2.notifs ++ [Notif.fullscreenEntered] }

/-- `leaveFullscreen`: idempotent; never touches `showNav`. -/
def leaveFullscreen (s : VM) : VM :=
  if s.isFullscreen then
    let s1 := hideFullscreenDragBar { s with isFullscreen := false }
    let s2 := updateAllViewBounds s1
    { s2 with notifs := s2.notifs ++ [Notif.fullscreenLeft] }
  else s

/-- The `leave-html-full-screen` webContents listener: content-triggered leave.
It calls `leaveFullscreen()` and tells the navbar surface; the macOS window
button call is platform chrome outside this model. -/
def onLeaveHtmlFullScreen (s : VM) : VM :=
  let s1 := leaveFullscreen s
  { s1 with notifs := s1.notifs ++ [Notif.navbarFullscreenLeave] }

/-- `getActiveView`. -/
def activeView (s : VM) : Option (Nat × CView) :=
  match s.activeTabId with
  | none => none
  | some id => (findEntry s.contentViews id).map (fun v => (id, v))

/-- The current offset for a domain (`zoomOffsetsByDomain.get(h) || 1.0`). -/
def offsetOf (s : VM) (host : String) : ℚ :=
  (findEntry s.zoomOffsetsByDomain host).getD 1

/-- `zoomIn`: domain-offset path when the URL parses, absolute-factor
fallback (no ledger, no notification) when `new URL` throws. -/
def zoomIn (s : VM) : VM :=
  match s.activeView with
  | none => s
  | some (id, view) =>
      match parseHostname view.url with
      | some hostname =>
          let currentOffset := s.offsetOf hostname
          let newOffset := min 3 (currentOffset + 1 / 10)
          let finalZoom := s.defaultZoomFactor * newOffset
          { s with
              zoomOffsetsByDomain := setEntry s.zoomOffsetsByDomain hostname newOffset
              contentViews := setEntry s.contentViews id { view with zoomFactor := finalZoom }
              notifs := s.notifs ++ [Notif.zoomChanged finalZoom (jsRound (finalZoom * 100))] }
      | none =>
          let newZoom := min 3 (view.zoomFactor + 1 / 10)
          { s with contentViews := setEntry s.contentViews id { view with zoomFactor := newZoom } }

/-- `zoomOut`. -/
def zoomOut (s : VM) : VM :=
  match s.activeView with
  | none => s
  | some (id, view) =>
      match parseHostname view.url with
      | some hostname =>
          let currentOffset := s.offsetOf hostname
          let newOffset := max (3 / 10) (currentOffset - 1 / 10)
          let finalZoom := s.defaultZoomFactor * newOffset
          { s with
              zoomOffsetsByDomain := setEntry s.zoomOffsetsByDomain hostname newOffset
              contentViews := setEntry s.contentViews id { view with zoomFactor := finalZoom }
              notifs := s.notifs ++ [Notif.zoomChanged finalZoom (jsRound (finalZoom * 100))] }
      | none =>
          let newZoom := max (1 / 2) (view.zoomFactor - 1 / 10)
          { s with contentViews := setEntry s.contentViews id { view with zoomFactor := newZoom } }

/-- `zoomReset`: drop the domain's ledger entry (when the URL parses) and
apply the bare default factor. -/
def zoomReset (s : VM) : VM :=
  match s.activeView with
  | none => s
  | some (id, view) =>
      let ledger :=
        match parseHostname view.url with
        | some hostname => delEntry s.zoomOffsetsByDomain hostname
        | none => s.zoomOffsetsByDomain
      let resetZoom := s.defaultZoomFactor
      { s with
          zoomOffsetsByDomain := ledger
          contentViews := setEntry s.contentViews id { view with zoomFactor := resetZoom }
          notifs := s.notifs ++ [Notif.zoomChanged resetZoom (jsRound (resetZoom * 100))] }

/-- `createView`: no-op when the id exists; otherwise construct the view,
add it to the layer stack, apply content bounds, hide it unless it is the
first view (which becomes implicitly active), register it, and attach
listeners.  The asynchronous `loadURL` is modelled by storing the target URL;
the initial webContents zoom factor is 1 (the default factor is applied on
`dom-ready`). -/
def createView (s : VM) (tabId : Nat) (url : String) : VM :=
  if (findEntry s.contentViews tabId).isSome then s
  else
    let firstView := s.contentViews.isEmpty
    let view : CView :=
      { url := url
        zoomFactor := 1
        visible := firstView
        bounds := s.calculateBounds
        inStack := true }
    { s with
        contentViews := s.contentViews ++ [(tabId, view)]
        activeTabId := if firstView then some tabId else s.activeTabId
        listened := s.listened ++ [tabId] }

/-- `switchToTab` on the view manager: hide the old view, re-raise and show
the target, focus it, record the new active id. -/
def switchToTab (s : VM) (tabId : Nat) : VM :=
  match findEntry s.contentViews tabId with
  | none => s
  | some view =>
      if s.activeTabId = some tabId then s
      else
        let s1 :=
          match s.activeTabId with
          | some oldTabId =>
              match findEntry s.contentViews oldTabId with
              | some oldView =>
                  { s with
                      contentViews :=
                        setEntry s.contentViews oldTabId { oldView with visible := false } }
              | none => s
          | none => s
        { s1 with
            contentViews :=
              setEntry s1.contentViews tabId { view with visible := true, inStack := true }
            activeTabId := some tabId
            notifs := s1.notifs ++ [Notif.tabSwitched s.activeTabId tabId] }

/-- The synchronous prefix of the view manager's `closeTab`, up to the point
where it suspends on `await view.webContents.close()`: listener cleanup, then
detachment from the window's layer stack.  The map entry is deleted only
after the await completes. -/
def closeTabPre (s : VM) (tabId : Nat) : VM :=
  match findEntry s.contentViews tabId with
  | none => s
  | some view =>
      { s with
          listened := s.listened.erase tabId
          contentViews := setEntry s.contentViews tabId { view with inStack := false } }

end VM

/-! ### Tab Directory (the tab-management module) -/

/-- One record in the ordered tab list. -/
structure Tab where
  id : Nat
  url : String
  title : String
  favicon : Option String
  loading : Bool
deriving DecidableEq, Repr

/-- A metadata patch as passed to `updateTab` (each key optional; the
`favicon` value itself may be `null`). -/
structure TabUpdates where
  url : Option String := none
  title : Option String := none
  favicon : Option (Option String) := none
  loading : Option Bool := none
deriving DecidableEq, Repr

/-- Apply a patch to a tab (assignment of every present key). -/
def applyUpdates (t : Tab) (u : TabUpdates) : Tab :=
  { t with
      url := u.url.getD t.url
      title := u.title.getD t.title
      favicon := u.favicon.getD t.favicon
      loading := u.loading.getD t.loading }

/-- Module-level tab state: `tabs`, `activeTabId`, `nextTabId`. -/
structure TabDir where
  tabs : List Tab
  activeTabId : Option Nat
  nextTabId : Nat
deriving DecidableEq, Repr

/-- The quick-access default URL for blank new tabs (`__dirname` elided). -/
def defaultNewTabUrl : String := "file://quick-access.html"

/-- Initial module state. -/
def dirInit : TabDir := { tabs := [], activeTabId := none, nextTabId := 1 }

namespace TabDir

/-- `createTab`, Tab-Directory effects: allocate the next id, push the
record, make it active.  Returns the new tab id. -/
def createTab (d : TabDir) (targetUrl : String) : TabDir × Nat :=
  let tabId := d.nextTabId
  let tab : Tab :=
    { id := tabId
      url := if targetUrl = "" then defaultNewTabUrl else targetUrl
      title := "New Tab"
      favicon := none
      loading := false }
  ({ tabs := d.tabs ++ [tab], activeTabId := some tabId, nextTabId := tabId + 1 }, tabId)

/-- `switchToTab`, directory effects: no-op returning `false` on unknown id. -/
def switchToTab (d : TabDir) (tabId : Nat) : TabDir × Bool :=
  match d.tabs.find? (fun t => t.id = tabId) with
  | none => (d, false)
  | some _ => ({ d with activeTabId := some tabId }, true)

/-- `closeTab`, directory effects: splice the record out; when the closed tab
was active, activate the tab now at the same index clamped to the new bounds,
or `null` when none remain. -/
def closeTab (d : TabDir) (tabId : Nat) : TabDir × Bool :=
  match findIndexP (fun t => t.id = tabId) d.tabs with
  | none => (d, false)
  | some tabIndex =>
      let tabs1 := spliceOne d.tabs tabIndex
      let active1 :=
        if d.activeTabId = some tabId then
          if tabs1.length > 0 then
            (nthOpt tabs1 (min tabIndex (tabs1.length - 1))).map Tab.id
          else none
        else d.activeTabId
      ({ d with tabs := tabs1, activeTabId := active1 }, true)

/-- `navigateTab`: optimistic URL update on the directory record. -/
def navigateTab (d : TabDir) (tabId : Nat) (targetUrl : String) : TabDir × Bool :=
  match d.tabs.find? (fun t => t.id = tabId) with
  | none => (d, false)
  | some _ =>
      ({ d with
          tabs := modifyFirst (fun t => t.id = tabId) (fun t => { t with url := targetUrl }) d.tabs },
        true)

/-- `updateTab` viewed as one completed operation (the call together with its
debounced flush): merge the patch into the record when the tab exists. -/
def updateTab (d : TabDir) (tabId : Nat) (u : TabUpdates) : TabDir × Bool :=
  match d.tabs.find? (fun t => t.id = tabId) with
  | none => (d, false)
  | some _ =>
      ({ d with tabs := modifyFirst (fun t => t.id = tabId) (fun t => applyUpdates t u) d.tabs },
        true)

end TabDir

/-- States of the Tab Directory reachable from the initial empty state by
completed `createTab` / `switchToTab` / `closeTab` / `navigateTab` /
`updateTab` operations. -/
inductive Reachable : TabDir → Prop
  | init : Reachable dirInit
  | create (d : TabDir) (url : String) :
      Reachable d → Reachable (TabDir.createTab d url).1
  | switch (d : TabDir) (tabId : Nat) :
      Reachable d → Reachable (TabDir.switchToTab d tabId).1
  | close (d : TabDir) (tabId : Nat) :
      Reachable d → Reachable (TabDir.closeTab d tabId).1
  | navigate (d : TabDir) (tabId : Nat) (url : String) :
      Reachable d → Reachable (TabDir.navigateTab d tabId url).1
  | update (d : TabDir) (tabId : Nat) (u : TabUpdates) :
      Reachable d → Reachable (TabDir.updateTab d tabId u).1

/-! ### Combined system: Tab Directory plus view manager -/

/-- The tab module together with the `WebContentsViewManager` it drives. -/
structure Sys where
  dir : TabDir
  vm : VM
deriving Repr

/-- An empty manager over a 1000×800 window. -/
def vmInit : VM :=
  { winW := 1000
    winH := 800
    navBarBounds := { x := 0, y := 0, width := 1000, height := 38 }
    overlayBounds := { x := 0, y := 0, width := 1000, height := 800 }
    overlayMode := none
    overlayInStack := false
    contentViews := []
    listened := []
    activeTabId := none
    showNav := true
    isFullscreen := false
    zoomOffsetsByDomain := []
    defaultZoomFactor := 1
    notifs := [] }

def sysInit : Sys := { dir := dirInit, vm := vmInit }

/-- The combined `createTab`: the record is pushed and activated first, and
only then is the surface constructed via `viewManager.createView`.  When the
surface factory (`new WebContentsView`) throws, `factoryOk = false`, the
exception propagates out of `createTab` — but the mutations already made to
the Tab Directory persist. -/
def sysCreateTab (s : Sys) (targetUrl : String) (factoryOk : Bool) : Sys × Except Unit Nat :=
  let tabId := s.dir.nextTabId
  let url := if targetUrl = "" then defaultNewTabUrl else targetUrl
  let tab : Tab :=
    { id := tabId, url := url, title := "New Tab", favicon := none, loading := false }
  let dir1 : TabDir :=
    { tabs := s.dir.tabs ++ [tab], activeTabId := some tabId, nextTabId := tabId + 1 }
  if (findEntry s.vm.contentViews tabId).isSome then
    ({ dir := dir1, vm := s.vm }, Except.ok tabId)
  else if factoryOk then
    ({ dir := dir1, vm := s.vm.createView tabId url }, Except.ok tabId)
  else
    ({ dir := dir1, vm := s.vm }, Except.error ())

/-- The combined `switchToTab`: guard on the directory first; only when the
tab exists touch the view manager and the active id. -/
def sysSwitchToTab (s : Sys) (tabId : Nat) : Sys × Bool :=
  match s.dir.tabs.find? (fun t => t.id = tabId) with
  | none => (s, false)
  | some _ =>
      ({ dir := { s.dir with activeTabId := some tabId }, vm := s.vm.switchToTab tabId }, true)

/-- The combined `closeTab` up to its unique suspension point: on unknown id
it returns `false` having mutated nothing (`none`); otherwise the record is
spliced out of the directory and the view manager has run the synchronous
prefix of its own `closeTab` (listener cleanup, layer-stack detachment), and
the operation is now awaiting the graceful `webContents.close()`. -/
def sysCloseTabPhase1 (s : Sys) (tabId : Nat) : Option Sys :=
  match findIndexP (fun t => t.id = tabId) s.dir.tabs with
  | none => none
  | some tabIndex =>
      some
        { dir := { s.dir with tabs := spliceOne s.dir.tabs tabIndex }
          vm := s.vm.closeTabPre tabId }

/-! ### Debounced `updateTab` (the coalescing machinery, modelled exactly)

`updateTab` merges each patch into a per-tab pending record
(`Object.assign(pending.data, updates)`) and schedules a single 64 ms flush
timer on the first call of a burst; the flush applies the merged data to
`tabs[tabIndex]` (the index captured when the timer was created), fires the
callback only when some field actually changed, and clears the pending
record. -/

/-- `Object.assign(a, b)`: keys present in `b` overwrite those of `a`. -/
def mergeUpd (a b : TabUpdates) : TabUpdates :=
  { url := b.url <|> a.url
    title := b.title <|> a.title
    favicon := b.favicon <|> a.favicon
    loading := b.loading <|> a.loading }

/-- The pending entry for a tab: accumulated data plus the `tabIndex`
captured by the scheduled timer's closure. -/
structure PendingRec where
  data : TabUpdates
  timerIndex : Nat
deriving DecidableEq, Repr

/-- Whether flushing `u` onto `t` assigns at least one differing field
(the flush's `hasChanges`). -/
def hasChange (t : Tab) (u : TabUpdates) : Bool :=
  (match u.url with | some v => v ≠ t.url | none => false) ||
  (match u.title with | some v => v ≠ t.title | none => false) ||
  (match u.favicon with | some v => v ≠ t.favicon | none => false) ||
  (match u.loading with | some v => v ≠ t.loading | none => false)

/-- State for a single tab's update burst: the tab list, that tab's pending
record (with its timer), the number of flush timers scheduled so far, and the
number of tabs-changed callbacks fired by flushes. -/
structure BurstState where
  tabs : List Tab
  pending : Option PendingRec
  timersScheduled : Nat
  notifsSent : Nat
deriving DecidableEq, Repr

/-- One `updateTab(tabId, updates)` call. -/
def burstUpdateTab (st : BurstState) (tabId : Nat) (u : TabUpdates) : BurstState × Bool :=
  match findIndexP (fun t => t.id = tabId) st.tabs with
  | none => (st, false)
  | some tabIndex =>
      match st.pending with
      | some p =>
          ({ st with pending := some { p with data := mergeUpd p.data u } }, true)
      | none =>
          ({ st with
              pending := some { data := u, timerIndex := tabIndex }
              timersScheduled := st.timersScheduled + 1 }, true)

/-- The scheduled flush firing: apply the merged data to the captured index,
send the callback only if something changed, delete the pending entry. -/
def burstFlush (st : BurstState) : BurstState :=
  match st.pending with
  | none => st
  | some p =>
      match nthOpt st.tabs p.timerIndex with
      | none => st
      | some tab =>
          let changed := hasChange tab p.data
          { tabs := st.tabs.set p.timerIndex (applyUpdates tab p.data)
            pending := none
            timersScheduled := st.timersScheduled
            notifsSent := st.notifsSent + (if changed then 1 else 0) }

/-- A burst: the calls, in order, all landing inside one coalescing window. -/
def processBurst (st : BurstState) (tabId : Nat) (us : List TabUpdates) : BurstState :=
  us.foldl (fun s u => (burstUpdateTab s tabId u).1) st

/-! ### Basic lemmas about the view-manager transitions -/

/-- Navbar effective height implied by the layout mode. -/
def VM.navHeight (s : VM) : ℤ :=
  if s.isFullscreen then 0
  else if s.showNav then NAVBAR_FULL_HEIGHT else NAVBAR_HIDDEN_HEIGHT

lemma calculateBounds_eq (s : VM) :
    s.calculateBounds = { x := 0, y := s.navHeight, width := s.winW, height := s.winH - s.navHeight } := by
  rfl

lemma updateNavBarBounds_geom (s : VM) :
    (s.updateNavBarBounds).showNav = s.showNav ∧
    (s.updateNavBarBounds).isFullscreen = s.isFullscreen ∧
    (s.updateNavBarBounds).winW = s.winW ∧
    (s.updateNavBarBounds).winH = s.winH ∧
    (s.updateNavBarBounds).overlayMode = s.overlayMode ∧
    (s.updateNavBarBounds).contentViews = s.contentViews ∧
    (s.updateNavBarBounds).navBarBounds
      = { x := 0, y := 0, width := s.winW, height := s.navHeight } := by
  simp [VM.updateNavBarBounds, VM.navHeight]

/-- The overlay-bounds setters touch only the overlay fields. -/
lemma overlaySetters_geom (s : VM) :
    ((s.updateOverlayBounds).showNav = s.showNav ∧
      (s.updateOverlayBounds).isFullscreen = s.isFullscreen ∧
      (s.updateOverlayBounds).winW = s.winW ∧
      (s.updateOverlayBounds).winH = s.winH ∧
      (s.updateOverlayBounds).navBarBounds = s.navBarBounds ∧
      (s.updateOverlayBounds).contentViews = s.contentViews) ∧
    ((s.setOverlaySearchBounds).showNav = s.showNav ∧
      (s.setOverlaySearchBounds).isFullscreen = s.isFullscreen ∧
      (s.setOverlaySearchBounds).winW = s.winW ∧
      (s.setOverlaySearchBounds).winH = s.winH ∧
      (s.setOverlaySearchBounds).navBarBounds = s.navBarBounds ∧
      (s.setOverlaySearchBounds).contentViews = s.contentViews) ∧
    ((s.setOverlayDragBarBounds).showNav = s.showNav ∧
      (s.setOverlayDragBarBounds).isFullscreen = s.isFullscreen ∧
      (s.setOverlayDragBarBounds).winW = s.winW ∧
      (s.setOverlayDragBarBounds).winH = s.winH ∧
      (s.setOverlayDragBarBounds).navBarBounds = s.navBarBounds ∧
      (s.setOverlayDragBarBounds).contentViews = s.contentViews) := by
  refine ⟨?_, ?_, ?_⟩ <;>
    simp [VM.updateOverlayBounds, VM.setOverlaySearchBounds, VM.setOverlayDragBarBounds]

lemma updateAllViewBounds_geom (s : VM) :
    (s.updateAllViewBounds).showNav = s.showNav ∧
    (s.updateAllViewBounds).isFullscreen = s.isFullscreen ∧
    (s.updateAllViewBounds).winW = s.winW ∧
    (s.updateAllViewBounds).winH = s.winH := by
  unfold VM.updateAllViewBounds
  rcases h : s.overlayMode with _ | m
  · simp [h, VM.updateNavBarBounds]
  · cases m <;>
      simp [h, VM.updateNavBarBounds, VM.updateOverlayBounds, VM.setOverlaySearchBounds,
        VM.setOverlayDragBarBounds]

lemma updateAllViewBounds_navBar (s : VM) :
    (s.updateAllViewBounds).navBarBounds
      = { x := 0, y := 0, width := s.winW, height := s.navHeight } := by
  unfold VM.updateAllViewBounds
  rcases h : s.overlayMode with _ | m
  · simp [h, VM.updateNavBarBounds, VM.navHeight]
  · cases m <;>
      simp [h, VM.updateNavBarBounds, VM.updateOverlayBounds, VM.setOverlaySearchBounds,
        VM.setOverlayDragBarBounds, VM.navHeight]

lemma updateAllViewBounds_contentViews (s : VM) :
    (s.updateAllViewBounds).contentViews
      = s.contentViews.map (fun p => (p.1, { p.2 with bounds := s.calculateBounds })) := by
  unfold VM.updateAllViewBounds
  rcases h : s.overlayMode with _ | m
  · simp [h, VM.updateNavBarBounds, VM.calculateBounds]
  · cases m <;>
      simp [h, VM.updateNavBarBounds, VM.updateOverlayBounds, VM.setOverlaySearchBounds,
        VM.setOverlayDragBarBounds, VM.calculateBounds]

lemma showFullscreenDragBar_pres (s : VM) :
    (s.showFullscreenDragBar).showNav = s.showNav ∧
    (s.showFullscreenDragBar).isFullscreen = s.isFullscreen ∧
    (s.showFullscreenDragBar).winW = s.winW ∧
    (s.showFullscreenDragBar).winH = s.winH ∧
    (s.showFullscreenDragBar).contentViews = s.contentViews := by
  unfold VM.showFullscreenDragBar
  rcases s.overlayMode with _ | m
  · simp [VM.setOverlayDragBarBounds]
  · by_cases hm : m = OverlayMode.dragbar <;> simp [hm, VM.setOverlayDragBarBounds]

lemma hideFullscreenDragBar_pres (s : VM) :
    (s.hideFullscreenDragBar).showNav = s.showNav ∧
    (s.hideFullscreenDragBar).isFullscreen = s.isFullscreen ∧
    (s.hideFullscreenDragBar).winW = s.winW ∧
    (s.hideFullscreenDragBar).winH = s.winH ∧
    (s.hideFullscreenDragBar).contentViews = s.contentViews := by
  unfold VM.hideFullscreenDragBar
  by_cases h : s.overlayMode = some OverlayMode.dragbar <;> simp [h]

lemma enterFullscreen_showNav (s : VM) : (s.enterFullscreen).showNav = s.showNav := by
  unfold VM.enterFullscreen
  by_cases h : s.isFullscreen
  · simp [h]
  · simp only [h, if_false, Bool.false_eq_true]
    rw [(updateAllViewBounds_geom _).1]
    rw [(showFullscreenDragBar_pres _).1]

lemma enterFullscreen_isFullscreen (s : VM) : (s.enterFullscreen).isFullscreen = true := by
  unfold VM.enterFullscreen
  by_cases h : s.isFullscreen
  · simp [h]
  · simp only [h, if_false, Bool.false_eq_true]
    rw [(updateAllViewBounds_geom _).2.1]
    rw [(showFullscreenDragBar_pres _).2.1]

lemma leaveFullscreen_showNav (s : VM) : (s.leaveFullscreen).showNav = s.showNav := by
  unfold VM.leaveFullscreen
  by_cases h : s.isFullscreen
  · simp only [h, if_true]
    rw [(updateAllViewBounds_geom _).1]
    rw [(hideFullscreenDragBar_pres _).1]
  · simp [h]

lemma leaveFullscreen_isFullscreen (s : VM) :
    (s.leaveFullscreen).isFullscreen = false := by
  unfold VM.leaveFullscreen
  by_cases h : s.isFullscreen
  · simp only [h, if_true]
    rw [(updateAllViewBounds_geom _).2.1]
    rw [(hideFullscreenDragBar_pres _).2.1]
  · simp [h, Bool.eq_false_iff.mpr h]

lemma enterFullscreen_navBar_height (s : VM) (h : s.isFullscreen = false) :
    (s.enterFullscreen).navBarBounds.height = 0 := by
  unfold VM.enterFullscreen
  simp only [h, Bool.false_eq_true, if_false]
  rw [updateAllViewBounds_navBar]
  simp [VM.navHeight, (showFullscreenDragBar_pres _).2.1]

lemma leaveFullscreen_navBar_height (s : VM) (h : s.isFullscreen = true) :
    (s.leaveFullscreen).navBarBounds.height
      = if s.showNav then NAVBAR_FULL_HEIGHT else NAVBAR_HIDDEN_HEIGHT := by
  unfold VM.leaveFullscreen
  simp only [h, if_true]
  rw [updateAllViewBounds_navBar]
  simp [VM.navHeight, (hideFullscreenDragBar_pres _).1, (hideFullscreenDragBar_pres _).2.1]

lemma onLeaveHtmlFullScreen_showNav (s : VM) :
    (s.onLeaveHtmlFullScreen).showNav = s.showNav := by
  simp [VM.onLeaveHtmlFullScreen, leaveFullscreen_showNav]

lemma onLeaveHtmlFullScreen_isFullscreen (s : VM) :
    (s.onLeaveHtmlFullScreen).isFullscreen = false := by
  simp [VM.onLeaveHtmlFullScreen, leaveFullscreen_isFullscreen]

lemma onLeaveHtmlFullScreen_navBar (s : VM) :
    (s.onLeaveHtmlFullScreen).navBarBounds = (s.leaveFullscreen).navBarBounds := by
  simp [VM.onLeaveHtmlFullScreen]

/-! ### Association-list lemmas -/

lemma findEntry_setEntry_self [DecidableEq α] (m : List (α × β)) (k : α) (v : β) :
    findEntry (setEntry m k v) k = some v := by
  induction m with
  | nil => simp [setEntry, findEntry]
  | cons p rest ih =>
      obtain ⟨a, b⟩ := p
      by_cases h : a = k <;> simp [setEntry, findEntry, h, ih]

lemma findEntry_setEntry_ne [DecidableEq α] (m : List (α × β)) (k k' : α) (v : β)
    (h : k' ≠ k) : findEntry (setEntry m k v) k' = findEntry m k' := by
  induction m with
  | nil => simp [setEntry, findEntry, h, Ne.symm h]
  | cons p rest ih =>
      obtain ⟨a, b⟩ := p
      by_cases ha : a = k
      · subst ha
        simp [setEntry, findEntry, h, Ne.symm h]
      · by_cases ha' : a = k'
        · subst ha'
          simp [setEntry, findEntry, ha, h, ih]
        · simp [setEntry, findEntry, ha, ha', ih]

lemma findEntry_eq_none_iff [DecidableEq α] (m : List (α × β)) (k : α) :
    findEntry m k = none ↔ k ∉ m.map Prod.fst := by
  induction m with
  | nil => simp [findEntry]
  | cons p rest ih =>
      obtain ⟨a, b⟩ := p
      by_cases h : a = k
      · subst h
        simp [findEntry]
      · have hk : ¬k = a := fun he => h he.symm
        simp [findEntry, h, ih, hk]

lemma mem_keys_setEntry [DecidableEq α] (m : List (α × β)) (k x : α) (v : β) :
    x ∈ (setEntry m k v).map Prod.fst ↔ x ∈ m.map Prod.fst ∨ x = k := by
  induction m with
  | nil => simp [setEntry]
  | cons p rest ih =>
      obtain ⟨a, b⟩ := p
      by_cases ha : a = k
      · subst ha
        simp only [setEntry, List.map_cons, List.mem_cons, if_true, eq_self_iff_true, if_pos]
        tauto
      · simp only [setEntry, if_neg ha, List.map_cons, List.mem_cons, ih]
        tauto

lemma keys_setEntry [DecidableEq α] (m : List (α × β)) (k : α) (v : β)
    (h : (m.map Prod.fst).Nodup) : ((setEntry m k v).map Prod.fst).Nodup := by
  induction m with
  | nil => simp [setEntry]
  | cons p rest ih =>
      obtain ⟨a, b⟩ := p
      simp only [List.map_cons, List.nodup_cons] at h
      by_cases ha : a = k
      · subst ha
        simp only [setEntry, List.map_cons, List.nodup_cons, if_true, eq_self_iff_true, if_pos]
        exact h
      · simp only [setEntry, if_neg ha, List.map_cons, List.nodup_cons]
        refine ⟨?_, ih h.2⟩
        intro hmem
        rcases (mem_keys_setEntry rest k a v).mp hmem with hin | rfl
        · exact h.1 hin
        · exact ha rfl

lemma findEntry_delEntry_self [DecidableEq α] (m : List (α × β)) (k : α)
    (h : (m.map Prod.fst).Nodup) : findEntry (delEntry m k) k = none := by
  induction m with
  | nil => simp [delEntry, findEntry]
  | cons p rest ih =>
      obtain ⟨a, b⟩ := p
      simp only [List.map_cons, List.nodup_cons] at h
      by_cases ha : a = k
      · subst ha
        simp only [delEntry, if_pos rfl]
        exact (findEntry_eq_none_iff rest a).mpr h.1
      · simp [delEntry, findEntry, ha, ih h.2]

/-! ### Example states used by the concrete scenarios -/

/-- A plain content view used by the sample states. -/
def sampleView (u : String) (vis : Bool) : CView :=
  { url := u
    zoomFactor := 1
    visible := vis
    bounds := { x := 0, y := 38, width := 1000, height := 762 }
    inStack := true }

/-- A 1000×800 manager with an active tab 1 and a hidden tab 2. -/
def sampleVM : VM :=
  { vmInit with
      contentViews :=
        [(1, sampleView "https://a.example/" true), (2, sampleView "https://b.example/" false)]
      listened := [1, 2]
      activeTabId := some 1 }

/-- The sample manager with the navbar hidden by the user preference. -/
def sampleHiddenNavVM : VM := { sampleVM with showNav := false }

/-! ### Claims about bounds and fullscreen -/

/-- C5: for every window content size the content-surface bounds are
`{x:0, y:navHeight, width:w, height:h-navHeight}` with `navHeight` 0 in
fullscreen, 38 when the navbar is shown, 0 when it is hidden; for a 1000×800
window they are `{0,38,1000,762}` with the navbar visible and
`{0,0,1000,800}` after hiding it; and `updateAllViewBounds` applies the same
content bounds to every content surface, hidden ones included. -/
theorem contentBounds_spec (s : VM) :
    (s.calculateBounds
        = { x := 0
            y := if s.isFullscreen then 0 else if s.showNav then 38 else 0
            width := s.winW
            height := s.winH - (if s.isFullscreen then 0 else if s.showNav then 38 else 0) }) ∧
    (∀ p ∈ (s.updateAllViewBounds).contentViews, p.2.bounds = s.calculateBounds) ∧
    (sampleVM.calculateBounds = { x := 0, y := 38, width := 1000, height := 762 }) ∧
    ((sampleVM.setNavBarVisible false).calculateBounds
        = { x := 0, y := 0, width := 1000, height := 800 }) ∧
    (∀ p ∈ (sampleVM.setNavBarVisible false).contentViews,
        p.2.bounds = { x := 0, y := 0, width := 1000, height := 800 }) := by
  refine ⟨rfl, ?_, by decide, by decide, by decide⟩
  intro p hp
  rw [updateAllViewBounds_contentViews] at hp
  rcases List.mem_map.mp hp with ⟨q, _, rfl⟩
  rfl

/-- Witness for `contentBounds_spec`: the hidden tab 2 of the sample state
also carries the full-window bounds after the navbar is hidden. -/
theorem contentBounds_spec_witness :
    ({ url := "https://b.example/", zoomFactor := 1, visible := false
       bounds := { x := 0, y := 0, width := 1000, height := 800 }
       inStack := true } : CView).bounds
      = { x := 0, y := 0, width := 1000, height := 800 } :=
  (contentBounds_spec sampleVM).2.2.2.2
    (2, { url := "https://b.example/", zoomFactor := 1, visible := false
          bounds := { x := 0, y := 0, width := 1000, height := 800 }
          inStack := true })
    (by decide)

/-- C6: entering fullscreen forces the navbar's effective height to zero
without changing the stored `showNav` preference, and a content-triggered
leave restores the navbar to exactly the pre-fullscreen preference — in
particular, entering fullscreen with `showNav = false` and then receiving
`leave-html-full-screen` leaves the navbar hidden, not force-shown. -/
theorem fullscreen_preserves_navPref (s : VM) :
    ((s.enterFullscreen).showNav = s.showNav) ∧
    ((s.enterFullscreen).calculateBounds.y = 0) ∧
    (s.isFullscreen = false → (s.enterFullscreen).navBarBounds.height = 0) ∧
    ((s.onLeaveHtmlFullScreen).showNav = s.showNav) ∧
    (s.showNav = false → s.isFullscreen = false →
      ((s.enterFullscreen).onLeaveHtmlFullScreen).showNav = false ∧
      ((s.enterFullscreen).onLeaveHtmlFullScreen).navBarBounds.height = 0 ∧
      ((s.enterFullscreen).onLeaveHtmlFullScreen).navHeight = 0) := by
  refine ⟨enterFullscreen_showNav s, ?_, fun h => enterFullscreen_navBar_height s h,
    onLeaveHtmlFullScreen_showNav s, fun hnav hfs => ⟨?_, ?_, ?_⟩⟩
  · rw [calculateBounds_eq]
    simp [VM.navHeight, enterFullscreen_isFullscreen]
  · rw [onLeaveHtmlFullScreen_showNav, enterFullscreen_showNav, hnav]
  · rw [onLeaveHtmlFullScreen_navBar,
      leaveFullscreen_navBar_height _ (enterFullscreen_isFullscreen s),
      enterFullscreen_showNav, hnav]
    decide
  · simp only [VM.navHeight, onLeaveHtmlFullScreen_isFullscreen, onLeaveHtmlFullScreen_showNav,
      enterFullscreen_showNav, hnav, Bool.false_eq_true, if_false]
    decide

/-- Witness for `fullscreen_preserves_navPref`: the hidden-navbar sample
state keeps its navbar hidden across an enter/content-leave round trip. -/
theorem fullscreen_preserves_navPref_witness :
    ((sampleHiddenNavVM.enterFullscreen).onLeaveHtmlFullScreen).showNav = false ∧
    ((sampleHiddenNavVM.enterFullscreen).onLeaveHtmlFullScreen).navBarBounds.height = 0 :=
  ⟨((fullscreen_preserves_navPref sampleHiddenNavVM).2.2.2.2 rfl rfl).1,
    ((fullscreen_preserves_navPref sampleHiddenNavVM).2.2.2.2 rfl rfl).2.1⟩

/-! ### Claim C1: registration order in `createTab` -/

/-- C1 as stated is false on the code: `createTab` pushes the tab record and
marks it active BEFORE calling the surface factory, so when
`new WebContentsView` throws, the Tab Directory does contain a record for the
new tab id (here id 1, from the empty initial state), with no surface in the
registry. -/
theorem createTab_surfaceFirst_counterexample :
    (sysCreateTab sysInit "https://example.com/" false).2 = Except.error () ∧
    (sysCreateTab sysInit "https://example.com/" false).1.dir.tabs.map Tab.id = [1] ∧
    findEntry (sysCreateTab sysInit "https://example.com/" false).1.vm.contentViews 1 = none := by
  refine ⟨rfl, by decide, rfl⟩

/-- C1 amended: the tab record is appended to the Tab Directory and activated
before the surface is created; when the surface factory fails, the exception
propagates but the already-pushed record remains in the Tab Directory with no
corresponding surface in the registry, so the directory/registry consistency
is NOT preserved on failure. -/
theorem createTab_pushes_directory_first (s : Sys) (url : String)
    (h : findEntry s.vm.contentViews s.dir.nextTabId = none) :
    (sysCreateTab s url false).2 = Except.error () ∧
    s.dir.nextTabId ∈ (sysCreateTab s url false).1.dir.tabs.map Tab.id ∧
    (sysCreateTab s url false).1.dir.activeTabId = some s.dir.nextTabId ∧
    findEntry (sysCreateTab s url false).1.vm.contentViews s.dir.nextTabId = none := by
  unfold sysCreateTab
  simp [h]

/-- Witness for `createTab_pushes_directory_first` at the initial state. -/
theorem createTab_pushes_directory_first_witness :
    (1 : Nat) ∈ (sysCreateTab sysInit "https://example.com/" false).1.dir.tabs.map Tab.id :=
  (createTab_pushes_directory_first sysInit "https://example.com/" rfl).2.1

/-! ### List lemmas for splice / findIndex -/

lemma nthOpt_mem : ∀ (l : List α) (i : Nat) (a : α), nthOpt l i = some a → a ∈ l := by
  intro l
  induction l with
  | nil => intro i a h; simp [nthOpt] at h
  | cons x xs ih =>
      intro i a h
      cases i with
      | zero =>
          simp [nthOpt] at h
          simp [h]
      | succ n =>
          simp only [nthOpt] at h
          exact List.mem_cons_of_mem x (ih n a h)

lemma nthOpt_isSome_of_lt : ∀ (l : List α) (i : Nat), i < l.length → ∃ a, nthOpt l i = some a := by
  intro l
  induction l with
  | nil => intro i h; simp at h
  | cons x xs ih =>
      intro i h
      cases i with
      | zero => exact ⟨x, rfl⟩
      | succ n =>
          simp only [List.length_cons, Nat.succ_lt_succ_iff] at h
          exact ih n h

lemma findIndexP_nth (p : α → Bool) :
    ∀ (l : List α) (i : Nat), findIndexP p l = some i →
      ∃ a, nthOpt l i = some a ∧ p a = true := by
  intro l
  induction l with
  | nil => intro i h; simp [findIndexP] at h
  | cons x xs ih =>
      intro i h
      by_cases hx : p x
      · have h0 : some 0 = some i := by
          rw [← h]
          simp [findIndexP, hx]
        cases h0
        exact ⟨x, rfl, hx⟩
      · have h1 : (findIndexP p xs).map (· + 1) = some i := by
          rw [← h]
          simp [findIndexP, hx]
        rcases Option.map_eq_some'.mp h1 with ⟨j, hj, rfl⟩
        rcases ih j hj with ⟨a, ha, hpa⟩
        exact ⟨a, ha, hpa⟩

lemma findIndexP_eq_none_iff (p : α → Bool) :
    ∀ (l : List α), findIndexP p l = none ↔ ∀ a ∈ l, p a = false := by
  intro l
  induction l with
  | nil => simp [findIndexP]
  | cons x xs ih =>
      by_cases hx : p x <;> simp [findIndexP, hx, ih]

lemma mem_map_spliceOne (f : α → γ) :
    ∀ (l : List α) (i : Nat) (b : α) (k : γ), nthOpt l i = some b → f b ≠ k →
      k ∈ l.map f → k ∈ (spliceOne l i).map f := by
  intro l
  induction l with
  | nil => intro i b k h; simp [nthOpt] at h
  | cons x xs ih =>
      intro i b k hnth hne hmem
      rw [List.map_cons] at hmem
      cases i with
      | zero =>
          simp only [nthOpt, Option.some_inj] at hnth
          subst hnth
          simp only [spliceOne]
          rcases List.mem_cons.mp hmem with h1 | h2
          · exact absurd h1.symm hne
          · exact h2
      | succ n =>
          simp only [nthOpt] at hnth
          simp only [spliceOne, List.map_cons, List.mem_cons]
          rcases List.mem_cons.mp hmem with h1 | h2
          · exact Or.inl h1
          · exact Or.inr (ih n b k hnth hne h2)

lemma not_mem_map_spliceOne_of_nodup (f : α → γ) :
    ∀ (l : List α) (i : Nat) (b : α), (l.map f).Nodup → nthOpt l i = some b →
      f b ∉ (spliceOne l i).map f := by
  intro l
  induction l with
  | nil => intro i b _ h; simp [nthOpt] at h
  | cons x xs ih =>
      intro i b hnd hnth
      simp only [List.map_cons, List.nodup_cons] at hnd
      cases i with
      | zero =>
          simp only [nthOpt, Option.some_inj] at hnth
          subst hnth
          simpa [spliceOne] using hnd.1
      | succ n =>
          simp only [nthOpt] at hnth
          simp only [spliceOne, List.map_cons, List.mem_cons]
          push_neg
          constructor
          · intro he
            exact hnd.1 (he ▸ List.mem_map_of_mem f (nthOpt_mem xs n b hnth))
          · exact ih n b hnd.2 hnth

lemma map_modifyFirst (f : α → γ) (p : α → Bool) (g : α → α) (hg : ∀ a, f (g a) = f a) :
    ∀ (l : List α), (modifyFirst p g l).map f = l.map f := by
  intro l
  induction l with
  | nil => rfl
  | cons x xs ih =>
      by_cases hx : p x <;> simp [modifyFirst, hx, hg, ih]

/-! ### Zoom equation lemmas -/

lemma activeView_inv (s : VM) (id : Nat) (v : CView) (hav : s.activeView = some (id, v)) :
    s.activeTabId = some id ∧ findEntry s.contentViews id = some v := by
  rcases h : s.activeTabId with _ | tid
  · exfalso
    have hav' : (none : Option (Nat × CView)) = some (id, v) := by
      rw [← hav]
      unfold VM.activeView
      rw [h]
    exact Option.noConfusion hav'
  · have hav' : (findEntry s.contentViews tid).map (fun w => (tid, w)) = some (id, v) := by
      rw [← hav]
      unfold VM.activeView
      rw [h]
    rcases Option.map_eq_some'.mp hav' with ⟨w, hw, hpair⟩
    have h1 : tid = id := congrArg Prod.fst hpair
    have h2 : w = v := congrArg Prod.snd hpair
    subst h1
    subst h2
    exact ⟨rfl, hw⟩

lemma zoomIn_eq (s : VM) (id : Nat) (v : CView) (host : String)
    (hav : s.activeView = some (id, v)) (hp : parseHostname v.url = some host) :
    s.zoomIn =
      { s with
          zoomOffsetsByDomain :=
            setEntry s.zoomOffsetsByDomain host (min 3 (s.offsetOf host + 1 / 10))
          contentViews :=
            setEntry s.contentViews id
              { v with zoomFactor := s.defaultZoomFactor * min 3 (s.offsetOf host + 1 / 10) }
          notifs :=
            s.notifs ++
              [Notif.zoomChanged (s.defaultZoomFactor * min 3 (s.offsetOf host + 1 / 10))
                (jsRound (s.defaultZoomFactor * min 3 (s.offsetOf host + 1 / 10) * 100))] } := by
  unfold VM.zoomIn
  rw [hav]
  simp [hp]

lemma zoomOut_eq (s : VM) (id : Nat) (v : CView) (host : String)
    (hav : s.activeView = some (id, v)) (hp : parseHostname v.url = some host) :
    s.zoomOut =
      { s with
          zoomOffsetsByDomain :=
            setEntry s.zoomOffsetsByDomain host (max (3 / 10) (s.offsetOf host - 1 / 10))
          contentViews :=
            setEntry s.contentViews id
              { v with zoomFactor := s.defaultZoomFactor * max (3 / 10) (s.offsetOf host - 1 / 10) }
          notifs :=
            s.notifs ++
              [Notif.zoomChanged (s.defaultZoomFactor * max (3 / 10) (s.offsetOf host - 1 / 10))
                (jsRound (s.defaultZoomFactor * max (3 / 10) (s.offsetOf host - 1 / 10) * 100))] } := by
  unfold VM.zoomOut
  rw [hav]
  simp [hp]

lemma zoomReset_eq (s : VM) (id : Nat) (v : CView) (host : String)
    (hav : s.activeView = some (id, v)) (hp : parseHostname v.url = some host) :
    s.zoomReset =
      { s with
          zoomOffsetsByDomain := delEntry s.zoomOffsetsByDomain host
          contentViews := setEntry s.contentViews id { v with zoomFactor := s.defaultZoomFactor }
          notifs :=
            s.notifs ++
              [Notif.zoomChanged s.defaultZoomFactor (jsRound (s.defaultZoomFactor * 100))] } := by
  unfold VM.zoomReset
  rw [hav]
  simp [hp]

lemma zoomIn_offsetOf (s : VM) (id : Nat) (v : CView) (host : String)
    (hav : s.activeView = some (id, v)) (hp : parseHostname v.url = some host) :
    (s.zoomIn).offsetOf host = min 3 (s.offsetOf host + 1 / 10) := by
  rw [zoomIn_eq s id v host hav hp]
  unfold VM.offsetOf
  simp [findEntry_setEntry_self]

lemma zoomOut_offsetOf (s : VM) (id : Nat) (v : CView) (host : String)
    (hav : s.activeView = some (id, v)) (hp : parseHostname v.url = some host) :
    (s.zoomOut).offsetOf host = max (3 / 10) (s.offsetOf host - 1 / 10) := by
  rw [zoomOut_eq s id v host hav hp]
  unfold VM.offsetOf
  simp [findEntry_setEntry_self]

lemma zoomIn_activeView (s : VM) (id : Nat) (v : CView) (host : String)
    (hav : s.activeView = some (id, v)) (hp : parseHostname v.url = some host) :
    (s.zoomIn).activeView
      = some (id, { v with zoomFactor := s.defaultZoomFactor * min 3 (s.offsetOf host + 1 / 10) }) := by
  obtain ⟨hid, _⟩ := activeView_inv s id v hav
  rw [zoomIn_eq s id v host hav hp]
  unfold VM.activeView
  simp [hid, findEntry_setEntry_self]

/-- The precondition of the domain-ledger zoom path: some view is active and
its URL has a hostname. -/
def GoodZoom (s : VM) (host : String) : Prop :=
  ∃ id v, s.activeView = some (id, v) ∧ parseHostname v.url = some host

lemma goodZoom_zoomIn (s : VM) (host : String) (h : GoodZoom s host) :
    GoodZoom (s.zoomIn) host ∧ (s.zoomIn).offsetOf host = min 3 (s.offsetOf host + 1 / 10) := by
  obtain ⟨id, v, hav, hp⟩ := h
  exact ⟨⟨id, _, zoomIn_activeView s id v host hav hp, hp⟩, zoomIn_offsetOf s id v host hav hp⟩

lemma zoomIn_iterate_le (host : String) :
    ∀ (n : Nat) (s : VM), GoodZoom s host → s.offsetOf host ≤ 3 →
      ((VM.zoomIn)^[n] s).offsetOf host ≤ 3 := by
  intro n
  induction n with
  | zero =>
      intro s _ h3
      simpa using h3
  | succ n ih =>
      intro s hg h3
      rw [Function.iterate_succ_apply]
      obtain ⟨hg', he⟩ := goodZoom_zoomIn s host hg
      exact ih _ hg' (by rw [he]; exact min_le_left _ _)

/-! ### Claim C7: zoom stepping and clamping -/

/-- C7: on the active tab with a parseable hostname, `zoomIn` / `zoomOut`
move the domain offset by exactly 0.1 clamped to [0.3, 3.0]; the zoom applied
to the surface equals `defaultZoomFactor` times the new offset; and any
number of consecutive `zoomIn` calls never pushes the stored offset above
3.0. -/
theorem zoom_step_clamped (s : VM) (host : String) (h : GoodZoom s host) :
    ((s.zoomIn).offsetOf host = min 3 (s.offsetOf host + 1 / 10)) ∧
    ((s.zoomOut).offsetOf host = max (3 / 10) (s.offsetOf host - 1 / 10)) ∧
    (3 / 10 ≤ s.offsetOf host → s.offsetOf host ≤ 3 →
      3 / 10 ≤ (s.zoomIn).offsetOf host ∧ (s.zoomIn).offsetOf host ≤ 3 ∧
      3 / 10 ≤ (s.zoomOut).offsetOf host ∧ (s.zoomOut).offsetOf host ≤ 3) ∧
    (∀ id v, s.activeView = some (id, v) →
      findEntry (s.zoomIn).contentViews id
        = some { v with zoomFactor := s.defaultZoomFactor * (s.zoomIn).offsetOf host }) ∧
    (s.offsetOf host ≤ 3 → ∀ n, ((VM.zoomIn)^[n] s).offsetOf host ≤ 3) := by
  obtain ⟨id0, v0, hav0, hp0⟩ := h
  refine ⟨zoomIn_offsetOf s id0 v0 host hav0 hp0, zoomOut_offsetOf s id0 v0 host hav0 hp0,
    ?_, ?_, ?_⟩
  · intro hlo hhi
    rw [zoomIn_offsetOf s id0 v0 host hav0 hp0, zoomOut_offsetOf s id0 v0 host hav0 hp0]
    refine ⟨le_min (by norm_num) (by linarith), min_le_left _ _, le_max_left _ _,
      max_le (by norm_num) (by linarith)⟩
  · intro id v hav
    rw [hav0] at hav
    have h1 : id0 = id := congrArg Prod.fst (Option.some_inj.mp hav)
    have h2 : v0 = v := congrArg Prod.snd (Option.some_inj.mp hav)
    subst h1
    subst h2
    rw [zoomIn_offsetOf s id0 v0 host hav0 hp0, zoomIn_eq s id0 v0 host hav0 hp0]
    simp [findEntry_setEntry_self]
  · intro h3 n
    exact zoomIn_iterate_le host n s ⟨id0, v0, hav0, hp0⟩ h3

/-- Witness for `zoom_step_clamped` at the sample state. -/
theorem zoom_step_clamped_witness :
    (sampleVM.zoomIn).offsetOf "a.example"
      = min 3 (sampleVM.offsetOf "a.example" + 1 / 10) :=
  (zoom_step_clamped sampleVM "a.example"
    ⟨1, sampleView "https://a.example/" true, rfl, by decide⟩).1

/-! ### Claim C8: zoomReset after zoomIns -/

/-- C8: three `zoomIn` calls followed by `zoomReset` on the active tab's
domain leave the applied zoom factor at exactly `defaultZoomFactor` (offset
1.0), remove the domain's ledger entry, and a subsequent offset lookup for
the domain yields the default 1.0. -/
theorem zoomReset_restores_default (s : VM) (host : String)
    (h : GoodZoom s host) (hnd : (s.zoomOffsetsByDomain.map Prod.fst).Nodup) :
    findEntry (s.zoomIn.zoomIn.zoomIn.zoomReset).zoomOffsetsByDomain host = none ∧
    (s.zoomIn.zoomIn.zoomIn.zoomReset).offsetOf host = 1 ∧
    (∀ id v, s.activeView = some (id, v) →
      findEntry (s.zoomIn.zoomIn.zoomIn.zoomReset).contentViews id
        = some { v with zoomFactor := s.defaultZoomFactor }) ∧
    (s.zoomIn.zoomIn.zoomIn.zoomReset).defaultZoomFactor = s.defaultZoomFactor := by
  obtain ⟨id, v, hav, hp⟩ := h
  have hav1 := zoomIn_activeView s id v host hav hp
  have hp1 : parseHostname ({ v with
      zoomFactor := s.defaultZoomFactor * min 3 (s.offsetOf host + 1 / 10) } : CView).url
      = some host := hp
  have hav2 := zoomIn_activeView s.zoomIn id _ host hav1 hp1
  have hav3 := zoomIn_activeView s.zoomIn.zoomIn id _ host hav2 hp1
  have hd1 : (s.zoomIn).defaultZoomFactor = s.defaultZoomFactor := by
    rw [zoomIn_eq s id v host hav hp]
  have hd2 : (s.zoomIn.zoomIn).defaultZoomFactor = s.defaultZoomFactor := by
    rw [zoomIn_eq s.zoomIn id _ host hav1 hp1, hd1]
  have hd3 : (s.zoomIn.zoomIn.zoomIn).defaultZoomFactor = s.defaultZoomFactor := by
    rw [zoomIn_eq s.zoomIn.zoomIn id _ host hav2 hp1, hd2]
  have hnd1 : ((s.zoomIn).zoomOffsetsByDomain.map Prod.fst).Nodup := by
    rw [zoomIn_eq s id v host hav hp]
    exact keys_setEntry _ _ _ hnd
  have hnd2 : ((s.zoomIn.zoomIn).zoomOffsetsByDomain.map Prod.fst).Nodup := by
    rw [zoomIn_eq s.zoomIn id _ host hav1 hp1]
    exact keys_setEntry _ _ _ hnd1
  have hnd3 : ((s.zoomIn.zoomIn.zoomIn).zoomOffsetsByDomain.map Prod.fst).Nodup := by
    rw [zoomIn_eq s.zoomIn.zoomIn id _ host hav2 hp1]
    exact keys_setEntry _ _ _ hnd2
  have hreset := zoomReset_eq s.zoomIn.zoomIn.zoomIn id _ host hav3 hp1
  have hledger : findEntry (s.zoomIn.zoomIn.zoomIn.zoomReset).zoomOffsetsByDomain host = none := by
    rw [hreset]
    exact findEntry_delEntry_self _ _ hnd3
  refine ⟨hledger, ?_, ?_, ?_⟩
  · unfold VM.offsetOf
    rw [hledger]
    rfl
  · intro id' v' hav'
    rw [hav] at hav'
    have h1 : id = id' := congrArg Prod.fst (Option.some_inj.mp hav')
    have h2 : v = v' := congrArg Prod.snd (Option.some_inj.mp hav')
    subst h1
    subst h2
    rw [hreset, hd3]
    exact findEntry_setEntry_self _ _ _
  · rw [hreset]
    exact hd3

/-- Witness for `zoomReset_restores_default` at the sample state. -/
theorem zoomReset_restores_default_witness :
    findEntry
      (sampleVM.zoomIn.zoomIn.zoomIn.zoomReset).zoomOffsetsByDomain "a.example" = none ∧
    (sampleVM.zoomIn.zoomIn.zoomIn.zoomReset).offsetOf "a.example" = 1 :=
  ⟨(zoomReset_restores_default sampleVM "a.example"
      ⟨1, sampleView "https://a.example/" true, rfl, by decide⟩ (by decide)).1,
    (zoomReset_restores_default sampleVM "a.example"
      ⟨1, sampleView "https://a.example/" true, rfl, by decide⟩ (by decide)).2.1⟩

/-! ### Claim C10: zoom behaviour without a usable hostname -/

/-- A manager whose single active tab sits on `about:blank`. -/
def aboutBlankVM : VM :=
  { vmInit with
      contentViews :=
        [(1, { url := "about:blank", zoomFactor := 1, visible := true
               bounds := { x := 0, y := 38, width := 1000, height := 762 }, inStack := true })]
      listened := [1]
      activeTabId := some 1 }

/-- C10 as stated is false on the code for its own example input: the WHATWG
URL constructor parses `about:blank` (hostname is the empty string), so
`zoomIn` takes the domain-ledger path — it creates a ledger entry keyed by
`""` and emits a zoom-changed notification, rather than the claimed
fallback. -/
theorem zoom_aboutBlank_counterexample :
    (aboutBlankVM.zoomIn).zoomOffsetsByDomain = [("", 11 / 10)] ∧
    (aboutBlankVM.zoomIn).zoomOffsetsByDomain ≠ aboutBlankVM.zoomOffsetsByDomain ∧
    (aboutBlankVM.zoomIn).notifs = [Notif.zoomChanged (11 / 10) 110] := by
  have hav : aboutBlankVM.activeView
      = some (1, { url := "about:blank", zoomFactor := 1, visible := true
                   bounds := { x := 0, y := 38, width := 1000, height := 762 }
                   inStack := true }) := rfl
  have hp : parseHostname "about:blank" = some "" := by decide
  rw [zoomIn_eq aboutBlankVM 1 _ "" hav hp]
  have hoff : aboutBlankVM.offsetOf "" = 1 := rfl
  have hmin : min (3 : ℚ) (1 + 1 / 10) = 11 / 10 := by
    rw [min_eq_right (by norm_num)]
    norm_num
  have hzoom : aboutBlankVM.defaultZoomFactor * min 3 (aboutBlankVM.offsetOf "" + 1 / 10)
      = 11 / 10 := by
    rw [hoff, hmin]
    norm_num [aboutBlankVM, vmInit]
  have hround : jsRound ((11 : ℚ) / 10 * 100) = 110 := by
    unfold jsRound
    rw [Int.floor_eq_iff]
    constructor <;> norm_num
  refine ⟨?_, ?_, ?_⟩
  · rw [hoff, hmin]
    rfl
  · rw [hoff, hmin]
    intro hcontra
    have : aboutBlankVM.zoomOffsetsByDomain = [] := rfl
    rw [this] at hcontra
    simp [setEntry] at hcontra
  · rw [hzoom]
    rw [hround]
    rfl

/-- C10 amended: when the active tab's URL fails to parse as a URL at all
(for example the empty URL of a fresh webContents — but not `about:blank`,
which parses with an empty hostname and takes the ledger path), no ledger
entry is created, modified or removed; the surface's absolute zoom factor is
adjusted by 0.1 with asymmetric clamps (`zoomIn` caps at 3.0, `zoomOut`
floors at 0.5); and no zoom-changed notification is emitted. -/
theorem zoom_fallback_on_unparseable_url (s : VM) (id : Nat) (v : CView)
    (hav : s.activeView = some (id, v)) (hp : parseHostname v.url = none) :
    (s.zoomIn).zoomOffsetsByDomain = s.zoomOffsetsByDomain ∧
    (s.zoomOut).zoomOffsetsByDomain = s.zoomOffsetsByDomain ∧
    findEntry (s.zoomIn).contentViews id
      = some { v with zoomFactor := min 3 (v.zoomFactor + 1 / 10) } ∧
    findEntry (s.zoomOut).contentViews id
      = some { v with zoomFactor := max (1 / 2) (v.zoomFactor - 1 / 10) } ∧
    (s.zoomIn).notifs = s.notifs ∧
    (s.zoomOut).notifs = s.notifs := by
  unfold VM.zoomIn VM.zoomOut
  rw [hav]
  simp [hp, findEntry_setEntry_self]

/-- Witness for `zoom_fallback_on_unparseable_url`: a fresh view whose
`getURL()` is still the empty string. -/
def emptyUrlVM : VM :=
  { vmInit with
      contentViews :=
        [(1, { url := "", zoomFactor := 1, visible := true
               bounds := { x := 0, y := 38, width := 1000, height := 762 }, inStack := true })]
      listened := [1]
      activeTabId := some 1 }

theorem zoom_fallback_on_unparseable_url_witness :
    (emptyUrlVM.zoomIn).zoomOffsetsByDomain = emptyUrlVM.zoomOffsetsByDomain ∧
    (emptyUrlVM.zoomIn).notifs = emptyUrlVM.notifs :=
  ⟨(zoom_fallback_on_unparseable_url emptyUrlVM 1
      { url := "", zoomFactor := 1, visible := true
        bounds := { x := 0, y := 38, width := 1000, height := 762 }, inStack := true }
      rfl rfl).1,
    (zoom_fallback_on_unparseable_url emptyUrlVM 1
      { url := "", zoomFactor := 1, visible := true
        bounds := { x := 0, y := 38, width := 1000, height := 762 }, inStack := true }
      rfl rfl).2.2.2.2.1⟩

/-! ### Claim C3: closing the active tab activates the clamped successor -/

/-- C3: closing the currently active tab activates the tab that slides into
the closed tab's index, clamped to the new list bounds — for three tabs
A, B, C with B active, `closeTab(B)` leaves C active (not A); closing the
last remaining tab leaves `activeTabId` null. -/
theorem closeTab_activates_successor :
    (∀ (d : TabDir) (tabId i : Nat),
        findIndexP (fun t => t.id = tabId) d.tabs = some i →
        d.activeTabId = some tabId →
        (TabDir.closeTab d tabId).1.activeTabId
          = if (spliceOne d.tabs i).length > 0 then
              (nthOpt (spliceOne d.tabs i) (min i ((spliceOne d.tabs i).length - 1))).map Tab.id
            else none) ∧
    (∀ (A B C : Tab) (n : Nat), A.id ≠ B.id → C.id ≠ B.id →
        (TabDir.closeTab { tabs := [A, B, C], activeTabId := some B.id, nextTabId := n } B.id).1
          = { tabs := [A, C], activeTabId := some C.id, nextTabId := n }) ∧
    (∀ (t : Tab) (n : Nat),
        (TabDir.closeTab { tabs := [t], activeTabId := some t.id, nextTabId := n } t.id).1.activeTabId
          = none) := by
  refine ⟨?_, ?_, ?_⟩
  · intro d tabId i hfind hact
    unfold TabDir.closeTab
    rw [hfind]
    simp [hact]
  · intro A B C n hA hC
    unfold TabDir.closeTab
    have hfind : findIndexP (fun t => t.id = B.id) [A, B, C] = some 1 := by
      simp [findIndexP, hA, hC]
    rw [hfind]
    simp [spliceOne, nthOpt]
  · intro t n
    unfold TabDir.closeTab
    have hfind : findIndexP (fun x => x.id = t.id) [t] = some 0 := by
      simp [findIndexP]
    rw [hfind]
    simp [spliceOne]

/-- Witness for `closeTab_activates_successor`: concrete three-tab state. -/
theorem closeTab_activates_successor_witness :
    (TabDir.closeTab
        { tabs :=
            [{ id := 1, url := "a", title := "A", favicon := none, loading := false },
              { id := 2, url := "b", title := "B", favicon := none, loading := false },
              { id := 3, url := "c", title := "C", favicon := none, loading := false }]
          activeTabId := some 2
          nextTabId := 4 } 2).1
      = { tabs :=
            [{ id := 1, url := "a", title := "A", favicon := none, loading := false },
              { id := 3, url := "c", title := "C", favicon := none, loading := false }]
          activeTabId := some 3
          nextTabId := 4 } :=
  closeTab_activates_successor.2.1
    { id := 1, url := "a", title := "A", favicon := none, loading := false }
    { id := 2, url := "b", title := "B", favicon := none, loading := false }
    { id := 3, url := "c", title := "C", favicon := none, loading := false }
    4 (by decide) (by decide)

/-! ### Claim C4: the active-tab invariant over all reachable states -/

/-- The Tab Directory invariant: no active tab iff no tabs; a present active
id always denotes a tab in the list. -/
def dirInv (d : TabDir) : Prop :=
  (d.activeTabId = none ↔ d.tabs = []) ∧
  (∀ a, d.activeTabId = some a → a ∈ d.tabs.map Tab.id)

lemma map_ne_nil_of_mem {f : α → γ} {l : List α} {k : γ} (h : k ∈ l.map f) : l ≠ [] := by
  intro he
  subst he
  simp at h

lemma closeTab_eq_noop (d : TabDir) (tabId : Nat)
    (hf : findIndexP (fun t => t.id = tabId) d.tabs = none) :
    (TabDir.closeTab d tabId).1 = d := by
  unfold TabDir.closeTab
  rw [hf]

lemma closeTab_eq_active (d : TabDir) (tabId i : Nat)
    (hf : findIndexP (fun t => t.id = tabId) d.tabs = some i)
    (hact : d.activeTabId = some tabId) :
    (TabDir.closeTab d tabId).1
      = { d with
            tabs := spliceOne d.tabs i
            activeTabId :=
              if (spliceOne d.tabs i).length > 0 then
                (nthOpt (spliceOne d.tabs i) (min i ((spliceOne d.tabs i).length - 1))).map Tab.id
              else none } := by
  unfold TabDir.closeTab
  rw [hf]
  simp [hact]

lemma closeTab_eq_notActive (d : TabDir) (tabId i : Nat)
    (hf : findIndexP (fun t => t.id = tabId) d.tabs = some i)
    (hact : ¬d.activeTabId = some tabId) :
    (TabDir.closeTab d tabId).1 = { d with tabs := spliceOne d.tabs i } := by
  unfold TabDir.closeTab
  rw [hf]
  simp [hact]

/-- C4: in every state reachable from the empty initial state via
`createTab`, `switchToTab`, `closeTab`, `navigateTab` and `updateTab`,
`activeTabId` is null iff the tab list is empty, and otherwise it is the id
of some tab present in the list. -/
theorem reachable_active_invariant (d : TabDir) (h : Reachable d) : dirInv d := by
  induction h with
  | init =>
      constructor
      · simp [dirInit]
      · intro a ha
        simp [dirInit] at ha
  | create d url _ ih =>
      unfold TabDir.createTab
      constructor
      · simp
      · intro a ha
        simp at ha
        simp [ha]
  | switch d tabId _ ih =>
      unfold TabDir.switchToTab
      cases hf : d.tabs.find? (fun t => t.id = tabId) with
      | none => simpa using ih
      | some t =>
          have hmem := List.mem_of_find?_eq_some hf
          have hpt : t.id = tabId := by simpa using List.find?_some hf
          constructor
          · constructor
            · intro hcontra
              simp at hcontra
            · intro hcontra
              rw [hcontra] at hmem
              simp at hmem
          · intro a ha
            simp only [Option.some_inj] at ha
            subst ha
            exact hpt ▸ List.mem_map_of_mem Tab.id hmem
  | close d tabId _ ih =>
      cases hf : findIndexP (fun t => t.id = tabId) d.tabs with
      | none =>
          rw [closeTab_eq_noop d tabId hf]
          exact ih
      | some i =>
          rcases findIndexP_nth _ _ _ hf with ⟨b, hb, hpb⟩
          have hbid : b.id = tabId := by simpa using hpb
          by_cases hact : d.activeTabId = some tabId
          · rw [closeTab_eq_active d tabId i hf hact]
            by_cases hlen : (spliceOne d.tabs i).length > 0
            · rcases nthOpt_isSome_of_lt (spliceOne d.tabs i)
                  (min i ((spliceOne d.tabs i).length - 1))
                  (lt_of_le_of_lt (min_le_right _ _) (Nat.sub_lt hlen Nat.one_pos)) with ⟨c, hc⟩
              constructor
              · show (if (spliceOne d.tabs i).length > 0 then
                      (nthOpt (spliceOne d.tabs i)
                        (min i ((spliceOne d.tabs i).length - 1))).map Tab.id
                    else none) = none ↔ spliceOne d.tabs i = []
                rw [if_pos hlen, hc]
                constructor
                · intro hcontra
                  simp at hcontra
                · intro hcontra
                  rw [hcontra] at hlen
                  simp at hlen
              · intro a ha
                have ha' : (if (spliceOne d.tabs i).length > 0 then
                      (nthOpt (spliceOne d.tabs i)
                        (min i ((spliceOne d.tabs i).length - 1))).map Tab.id
                    else none) = some a := ha
                rw [if_pos hlen, hc] at ha'
                have hca : c.id = a := by simpa using ha'
                exact hca ▸ List.mem_map_of_mem Tab.id (nthOpt_mem _ _ _ hc)
            · have hnil : spliceOne d.tabs i = [] := by
                cases hsp : spliceOne d.tabs i with
                | nil => rfl
                | cons y ys => rw [hsp] at hlen; simp at hlen
              constructor
              · show (if (spliceOne d.tabs i).length > 0 then
                      (nthOpt (spliceOne d.tabs i)
                        (min i ((spliceOne d.tabs i).length - 1))).map Tab.id
                    else none) = none ↔ spliceOne d.tabs i = []
                rw [if_neg hlen]
                simp [hnil]
              · intro a ha
                have ha' : (if (spliceOne d.tabs i).length > 0 then
                      (nthOpt (spliceOne d.tabs i)
                        (min i ((spliceOne d.tabs i).length - 1))).map Tab.id
                    else none) = some a := ha
                rw [if_neg hlen] at ha'
                exact Option.noConfusion ha'
          · rw [closeTab_eq_notActive d tabId i hf hact]
            obtain ⟨ih1, ih2⟩ := ih
            cases ha : d.activeTabId with
            | none =>
                have hdnil : d.tabs = [] := ih1.mp ha
                rw [hdnil] at hf
                simp [findIndexP] at hf
            | some a =>
                have haneq : a ≠ tabId := by
                  intro he
                  exact hact (he ▸ ha)
                have hamem : a ∈ d.tabs.map Tab.id := ih2 a ha
                have hmem' : a ∈ (spliceOne d.tabs i).map Tab.id :=
                  mem_map_spliceOne Tab.id d.tabs i b a hb
                    (fun he => haneq (he.symm.trans hbid)) hamem
                constructor
                · constructor
                  · intro hcontra
                    exact Option.noConfusion hcontra
                  · intro hcontra
                    have hc2 : spliceOne d.tabs i = [] := hcontra
                    rw [hc2] at hmem'
                    simp at hmem'
                · intro a' ha'
                  have ha'' : (some a : Option Nat) = some a' := ha'
                  have haa : a = a' := by simpa using ha''
                  exact haa ▸ hmem'
  | navigate d tabId url _ ih =>
      unfold TabDir.navigateTab
      cases hf : d.tabs.find? (fun t => t.id = tabId) with
      | none => simpa using ih
      | some t =>
          obtain ⟨ih1, ih2⟩ := ih
          have hmap : (modifyFirst (fun t => t.id = tabId) (fun t => { t with url := url })
              d.tabs).map Tab.id = d.tabs.map Tab.id :=
            map_modifyFirst Tab.id (fun t => t.id = tabId) (fun t => { t with url := url })
              (fun a => rfl) d.tabs
          refine ⟨⟨?_, ?_⟩, ?_⟩
          · intro hcontra
            have hact : d.activeTabId = none := hcontra
            have hdnil : d.tabs = [] := ih1.mp hact
            show modifyFirst (fun t => t.id = tabId) (fun t => { t with url := url }) d.tabs = []
            rw [hdnil]
            rfl
          · intro hcontra
            have hc2 : modifyFirst (fun t => t.id = tabId) (fun t => { t with url := url })
                d.tabs = [] := hcontra
            show d.activeTabId = none
            apply ih1.mpr
            have hmnil : d.tabs.map Tab.id = [] := by
              rw [← hmap, hc2]
              rfl
            cases hd : d.tabs with
            | nil => rfl
            | cons y ys => rw [hd] at hmnil; simp at hmnil
          · intro a ha
            have ha2 : d.activeTabId = some a := ha
            have hmem := ih2 a ha2
            show a ∈ (modifyFirst (fun t => t.id = tabId) (fun t => { t with url := url })
                d.tabs).map Tab.id
            rw [hmap]
            exact hmem
  | update d tabId u _ ih =>
      unfold TabDir.updateTab
      cases hf : d.tabs.find? (fun t => t.id = tabId) with
      | none => simpa using ih
      | some t =>
          obtain ⟨ih1, ih2⟩ := ih
          have hmap : (modifyFirst (fun t => t.id = tabId) (fun t => applyUpdates t u)
              d.tabs).map Tab.id = d.tabs.map Tab.id :=
            map_modifyFirst Tab.id (fun t => t.id = tabId) (fun t => applyUpdates t u)
              (fun a => rfl) d.tabs
          refine ⟨⟨?_, ?_⟩, ?_⟩
          · intro hcontra
            have hact : d.activeTabId = none := hcontra
            have hdnil : d.tabs = [] := ih1.mp hact
            show modifyFirst (fun t => t.id = tabId) (fun t => applyUpdates t u) d.tabs = []
            rw [hdnil]
            rfl
          · intro hcontra
            have hc2 : modifyFirst (fun t => t.id = tabId) (fun t => applyUpdates t u)
                d.tabs = [] := hcontra
            show d.activeTabId = none
            apply ih1.mpr
            have hmnil : d.tabs.map Tab.id = [] := by
              rw [← hmap, hc2]
              rfl
            cases hd : d.tabs with
            | nil => rfl
            | cons y ys => rw [hd] at hmnil; simp at hmnil
          · intro a ha
            have ha2 : d.activeTabId = some a := ha
            have hmem := ih2 a ha2
            show a ∈ (modifyFirst (fun t => t.id = tabId) (fun t => applyUpdates t u)
                d.tabs).map Tab.id
            rw [hmap]
            exact hmem

/-- Witness for `reachable_active_invariant`: create-then-close leaves the
invariant intact (active is null iff the list is empty). -/
theorem reachable_active_invariant_witness :
    ((TabDir.closeTab (TabDir.createTab dirInit "").1 1).1.activeTabId = none ↔
      (TabDir.closeTab (TabDir.createTab dirInit "").1 1).1.tabs = []) :=
  (reachable_active_invariant _
    (Reachable.close (TabDir.createTab dirInit "").1 1
      (Reachable.create dirInit "" Reachable.init))).1

/-! ### Claim C2: reentrancy during the graceful-close suspension -/

lemma closeTabPre_eq (m : VM) (tabId : Nat) (v : CView)
    (h : findEntry m.contentViews tabId = some v) :
    m.closeTabPre tabId
      = { m with
            listened := m.listened.erase tabId
            contentViews := setEntry m.contentViews tabId { v with inStack := false } } := by
  unfold VM.closeTabPre
  rw [h]

lemma sysCloseTabPhase1_eq_none (s : Sys) (tabId : Nat)
    (h : findIndexP (fun t => t.id = tabId) s.dir.tabs = none) :
    sysCloseTabPhase1 s tabId = none := by
  unfold sysCloseTabPhase1
  rw [h]

lemma sysSwitchToTab_eq_noop (s : Sys) (tabId : Nat)
    (h : s.dir.tabs.find? (fun t => t.id = tabId) = none) :
    sysSwitchToTab s tabId = (s, false) := by
  unfold sysSwitchToTab
  rw [h]

/-- C2: while `closeTab(tabId)` awaits the graceful close of the surface, the
surface is already detached from the layer stack and the tab record is out of
the Tab Directory; a second `closeTab(tabId)` returns `false` before any
mutation (its phase-1 is `none`), and `switchToTab(tabId)` is a pure no-op
returning `false` — both behave as if the tab does not exist. -/
theorem closeTab_teardown_isolated (s : Sys) (tabId i : Nat) (v : CView)
    (hfind : findIndexP (fun t => t.id = tabId) s.dir.tabs = some i)
    (hvm : findEntry s.vm.contentViews tabId = some v)
    (hnd : (s.dir.tabs.map Tab.id).Nodup) :
    (sysCloseTabPhase1 s tabId).isSome = true ∧
    (∀ s', sysCloseTabPhase1 s tabId = some s' →
      tabId ∉ s'.dir.tabs.map Tab.id ∧
      findEntry s'.vm.contentViews tabId = some { v with inStack := false } ∧
      sysCloseTabPhase1 s' tabId = none ∧
      sysSwitchToTab s' tabId = (s', false)) := by
  have hphase : sysCloseTabPhase1 s tabId
      = some { dir := { s.dir with tabs := spliceOne s.dir.tabs i }
               vm := s.vm.closeTabPre tabId } := by
    unfold sysCloseTabPhase1
    rw [hfind]
  obtain ⟨b, hb, hpb⟩ := findIndexP_nth _ _ _ hfind
  have hbid : b.id = tabId := by simpa using hpb
  have hnotmem : tabId ∉ (spliceOne s.dir.tabs i).map Tab.id :=
    hbid ▸ not_mem_map_spliceOne_of_nodup Tab.id s.dir.tabs i b hnd hb
  refine ⟨by rw [hphase]; rfl, ?_⟩
  intro s' hs'
  rw [hphase] at hs'
  have hs'' : ({ dir := { s.dir with tabs := spliceOne s.dir.tabs i }
                 vm := s.vm.closeTabPre tabId } : Sys) = s' := Option.some_inj.mp hs'
  subst hs''
  refine ⟨hnotmem, ?_, ?_, ?_⟩
  · show findEntry (s.vm.closeTabPre tabId).contentViews tabId
      = some { v with inStack := false }
    rw [closeTabPre_eq s.vm tabId v hvm]
    exact findEntry_setEntry_self _ _ _
  · apply sysCloseTabPhase1_eq_none
    show findIndexP (fun t => t.id = tabId) (spliceOne s.dir.tabs i) = none
    rw [findIndexP_eq_none_iff]
    intro t ht
    apply decide_eq_false
    intro he
    exact hnotmem (he ▸ List.mem_map_of_mem Tab.id ht)
  · apply sysSwitchToTab_eq_noop
    show (spliceOne s.dir.tabs i).find? (fun t => t.id = tabId) = none
    rw [List.find?_eq_none]
    intro t ht hp
    have he : t.id = tabId := by simpa using hp
    exact hnotmem (he ▸ List.mem_map_of_mem Tab.id ht)

/-- A concrete one-tab system for the teardown witness. -/
def sampleSys : Sys :=
  { dir :=
      { tabs := [{ id := 1, url := "https://a.example/", title := "A", favicon := none
                   loading := false }]
        activeTabId := some 1
        nextTabId := 2 }
    vm := sampleVM }

/-- Witness for `closeTab_teardown_isolated` at the concrete system. -/
theorem closeTab_teardown_isolated_witness :
    (sysCloseTabPhase1 sampleSys 1).isSome = true :=
  (closeTab_teardown_isolated sampleSys 1 0 (sampleView "https://a.example/" true)
    rfl rfl (by decide)).1

/-! ### Claim C9: coalesced updateTab bursts -/

lemma mergeUpd_default (u : TabUpdates) : mergeUpd {} u = u := by
  rcases u with ⟨u1, u2, u3, u4⟩
  cases u1 <;> cases u2 <;> cases u3 <;> cases u4 <;> rfl

lemma burstUpdateTab_merge (st : BurstState) (tabId : Nat) (u : TabUpdates) (i : Nat)
    (p : PendingRec)
    (hf : findIndexP (fun t => t.id = tabId) st.tabs = some i)
    (hp : st.pending = some p) :
    burstUpdateTab st tabId u
      = ({ st with pending := some { p with data := mergeUpd p.data u } }, true) := by
  unfold burstUpdateTab
  rw [hf, hp]

lemma burstUpdateTab_start (st : BurstState) (tabId : Nat) (u : TabUpdates) (i : Nat)
    (hf : findIndexP (fun t => t.id = tabId) st.tabs = some i)
    (hp : st.pending = none) :
    burstUpdateTab st tabId u
      = ({ st with
            pending := some { data := u, timerIndex := i }
            timersScheduled := st.timersScheduled + 1 }, true) := by
  unfold burstUpdateTab
  rw [hf, hp]

lemma processBurst_some (tabId i : Nat) :
    ∀ (us : List TabUpdates) (st : BurstState) (d : TabUpdates),
      findIndexP (fun t => t.id = tabId) st.tabs = some i →
      st.pending = some { data := d, timerIndex := i } →
      processBurst st tabId us
        = { st with pending := some { data := us.foldl mergeUpd d, timerIndex := i } } := by
  intro us
  induction us with
  | nil =>
      intro st d hf hp
      show st = { st with pending := some { data := List.foldl mergeUpd d [], timerIndex := i } }
      rw [List.foldl_nil, ← hp]
  | cons u us ih =>
      intro st d hf hp
      show processBurst (burstUpdateTab st tabId u).1 tabId us
        = { st with
              pending := some { data := (u :: us).foldl mergeUpd d, timerIndex := i } }
      rw [burstUpdateTab_merge st tabId u i _ hf hp, List.foldl_cons]
      exact ih { st with pending := some { data := mergeUpd d u, timerIndex := i } }
        (mergeUpd d u) hf rfl

lemma processBurst_start (tabId i : Nat) (st : BurstState) (u : TabUpdates)
    (us : List TabUpdates)
    (hf : findIndexP (fun t => t.id = tabId) st.tabs = some i)
    (hp : st.pending = none) :
    processBurst st tabId (u :: us)
      = { st with
            pending := some { data := us.foldl mergeUpd u, timerIndex := i }
            timersScheduled := st.timersScheduled + 1 } := by
  show processBurst (burstUpdateTab st tabId u).1 tabId us = _
  rw [burstUpdateTab_start st tabId u i hf hp]
  exact processBurst_some tabId i us _ u hf rfl

lemma orElse_none_right {γ : Type} (o : Option γ) : (o <|> none) = o := by
  cases o <;> rfl

lemma getLast?_cons_ne_none {γ : Type} (y : γ) (ys : List γ) :
    (y :: ys).getLast? ≠ none := by
  induction ys generalizing y with
  | nil => simp
  | cons z zs ih =>
      rw [List.getLast?_cons_cons]
      exact ih z

lemma foldl_merge_field {γ : Type} (g : TabUpdates → Option γ)
    (hg : ∀ a b, g (mergeUpd a b) = (g b <|> g a)) :
    ∀ (us : List TabUpdates) (d : TabUpdates),
      g (us.foldl mergeUpd d) = ((us.filterMap g).getLast? <|> g d) := by
  intro us
  induction us with
  | nil => intro d; rfl
  | cons u us ih =>
      intro d
      rw [List.foldl_cons, ih (mergeUpd d u), hg d u]
      cases hgu : g u with
      | none =>
          simp only [List.filterMap_cons, hgu]
          rfl
      | some x =>
          simp only [List.filterMap_cons, hgu]
          cases hl : us.filterMap g with
          | nil => rfl
          | cons y ys =>
              rw [List.getLast?_cons_cons]
              rcases hz : (y :: ys).getLast? with _ | z
              · exact absurd hz (getLast?_cons_ne_none y ys)
              · rfl

lemma foldl_merge_field_default {γ : Type} (g : TabUpdates → Option γ)
    (hg : ∀ a b, g (mergeUpd a b) = (g b <|> g a))
    (hgd : g {} = none) (us : List TabUpdates) :
    g (us.foldl mergeUpd {}) = (us.filterMap g).getLast? := by
  rw [foldl_merge_field g hg us {}, hgd, orElse_none_right]

lemma nthOpt_set_self : ∀ (l : List α) (i : Nat) (a b : α), nthOpt l i = some b →
    nthOpt (l.set i a) i = some a := by
  intro l
  induction l with
  | nil => intro i a b h; simp [nthOpt] at h
  | cons x xs ih =>
      intro i a b h
      cases i with
      | zero => rfl
      | succ n => exact ih n a b h

lemma burstFlush_eq (st : BurstState) (p : PendingRec) (t : Tab)
    (hp : st.pending = some p) (ht : nthOpt st.tabs p.timerIndex = some t) :
    burstFlush st
      = { tabs := st.tabs.set p.timerIndex (applyUpdates t p.data)
          pending := none
          timersScheduled := st.timersScheduled
          notifsSent := st.notifsSent + (if hasChange t p.data then 1 else 0) } := by
  rcases st with ⟨tabs, pending, timers, notifs⟩
  simp only at hp ht
  subst hp
  have hstep : burstFlush ⟨tabs, some p, timers, notifs⟩
      = match nthOpt tabs p.timerIndex with
        | none => ⟨tabs, some p, timers, notifs⟩
        | some tab =>
            ⟨tabs.set p.timerIndex (applyUpdates tab p.data), none, timers,
              notifs + (if hasChange tab p.data then 1 else 0)⟩ := rfl
  rw [hstep, ht]

lemma mergeUpd_url (a b : TabUpdates) : (mergeUpd a b).url = (b.url <|> a.url) := rfl

lemma mergeUpd_title (a b : TabUpdates) : (mergeUpd a b).title = (b.title <|> a.title) := rfl

lemma mergeUpd_favicon (a b : TabUpdates) :
    (mergeUpd a b).favicon = (b.favicon <|> a.favicon) := rfl

lemma mergeUpd_loading (a b : TabUpdates) :
    (mergeUpd a b).loading = (b.loading <|> a.loading) := rfl

/-- C9: a burst of `updateTab` calls for one existing tab inside the
coalescing window schedules exactly one flush, performs no tab mutation and
sends no notification during the burst itself, and the single flush leaves
each field holding the last value supplied for it across the burst (previous
value if never supplied), clears the pending entry, and sends at most one
tabs-changed callback — sent only when some field actually changed. -/
theorem updateTab_burst_coalesced (st : BurstState) (tabId i : Nat) (t : Tab)
    (us : List TabUpdates)
    (hf : findIndexP (fun x => x.id = tabId) st.tabs = some i)
    (ht : nthOpt st.tabs i = some t)
    (hp : st.pending = none)
    (hne : us ≠ []) :
    (processBurst st tabId us).timersScheduled = st.timersScheduled + 1 ∧
    (processBurst st tabId us).tabs = st.tabs ∧
    (processBurst st tabId us).notifsSent = st.notifsSent ∧
    (burstFlush (processBurst st tabId us)).pending = none ∧
    (∃ t', nthOpt (burstFlush (processBurst st tabId us)).tabs i = some t' ∧
      t'.id = t.id ∧
      t'.url = ((us.filterMap TabUpdates.url).getLast?).getD t.url ∧
      t'.title = ((us.filterMap TabUpdates.title).getLast?).getD t.title ∧
      t'.favicon = ((us.filterMap TabUpdates.favicon).getLast?).getD t.favicon ∧
      t'.loading = ((us.filterMap TabUpdates.loading).getLast?).getD t.loading) ∧
    ((burstFlush (processBurst st tabId us)).notifsSent
        = st.notifsSent + (if hasChange t (us.foldl mergeUpd {}) then 1 else 0)) := by
  cases us with
  | nil => exact absurd rfl hne
  | cons u us' =>
      have hD : us'.foldl mergeUpd u = (u :: us').foldl mergeUpd {} := by
        rw [List.foldl_cons, mergeUpd_default]
      have hburst := processBurst_start tabId i st u us' hf hp
      rw [hburst]
      have hflush := burstFlush_eq
        { st with
            pending := some { data := us'.foldl mergeUpd u, timerIndex := i }
            timersScheduled := st.timersScheduled + 1 }
        { data := us'.foldl mergeUpd u, timerIndex := i } t rfl ht
      rw [hflush]
      refine ⟨rfl, rfl, rfl, rfl, ?_, ?_⟩
      · refine ⟨applyUpdates t (us'.foldl mergeUpd u),
          nthOpt_set_self st.tabs i (applyUpdates t (us'.foldl mergeUpd u)) t ht, rfl,
          ?_, ?_, ?_, ?_⟩
        · show (us'.foldl mergeUpd u).url.getD t.url
            = ((u :: us').filterMap TabUpdates.url).getLast?.getD t.url
          rw [hD, foldl_merge_field_default TabUpdates.url mergeUpd_url rfl]
        · show (us'.foldl mergeUpd u).title.getD t.title
            = ((u :: us').filterMap TabUpdates.title).getLast?.getD t.title
          rw [hD, foldl_merge_field_default TabUpdates.title mergeUpd_title rfl]
        · show (us'.foldl mergeUpd u).favicon.getD t.favicon
            = ((u :: us').filterMap TabUpdates.favicon).getLast?.getD t.favicon
          rw [hD, foldl_merge_field_default TabUpdates.favicon mergeUpd_favicon rfl]
        · show (us'.foldl mergeUpd u).loading.getD t.loading
            = ((u :: us').filterMap TabUpdates.loading).getLast?.getD t.loading
          rw [hD, foldl_merge_field_default TabUpdates.loading mergeUpd_loading rfl]
      · show st.notifsSent + (if hasChange t (us'.foldl mergeUpd u) then 1 else 0)
            = st.notifsSent + (if hasChange t ((u :: us').foldl mergeUpd {}) then 1 else 0)
        rw [hD]

/-- Witness for `updateTab_burst_coalesced`: a two-call burst on a single
tab; the flush keeps only the last title. -/
theorem updateTab_burst_coalesced_witness :
    (burstFlush (processBurst
        { tabs := [{ id := 1, url := "u", title := "T", favicon := none, loading := false }]
          pending := none, timersScheduled := 0, notifsSent := 0 } 1
        [{ title := some "X" }, { title := some "Y", loading := some true }])).pending
      = none :=
  (updateTab_burst_coalesced
    { tabs := [{ id := 1, url := "u", title := "T", favicon := none, loading := false }]
      pending := none, timersScheduled := 0, notifsSent := 0 }
    1 0 { id := 1, url := "u", title := "T", favicon := none, loading := false }
    [{ title := some "X" }, { title := some "Y", loading := some true }]
    rfl rfl rfl (by decide)).2.2.2.1

end Archy
